import Mathlib

/-!
Verification of `steamroller` (`src/steamroller/engines/grid_engine.py`).

The development shallowly embeds the Python module: pure functions become
Lean functions over `Nat`/`Int`/`String`/`List`; the mutable SCons node tag
store becomes an explicit side table (`Store`) passed and returned; the
scheduler subprocess is modelled by the text it writes to standard output;
fallible code returns `Except String`.  `hashlib.md5` is implemented in
full (RFC 1321) over byte lists, with machine words as `Nat` reduced
`% 2 ^ 32`.
-/

/-! ## Bytes and UTF-8 (Python `bytes(s, "utf-8")`) -/

/-- UTF-8 encoding of one character, as a list of byte values. -/
def charUtf8 (c : Char) : List Nat :=
  let n := c.toNat
  if n < 128 then [n]
  else if n < 2048 then [192 + n / 64, 128 + n % 64]
  else if n < 65536 then [224 + n / 4096, 128 + n / 64 % 64, 128 + n % 64]
  else [240 + n / 262144, 128 + n / 4096 % 64, 128 + n / 64 % 64, 128 + n % 64]

/-- UTF-8 bytes of a string, modelling Python `bytes(s, "utf-8")`. -/
def utf8Bytes (s : String) : List Nat :=
  s.data.foldr (fun c acc => charUtf8 c ++ acc) []

/-! ## MD5 (`hashlib.md5`), RFC 1321, words as `Nat` mod `2 ^ 32` -/

/-- The 32-bit modulus. -/
def M32 : Nat := 4294967296

/-- Per-round left-rotation amounts. -/
def mdS : List Nat :=
  [7, 12, 17, 22, 7, 12, 17, 22, 7, 12, 17, 22, 7, 12, 17, 22,
   5, 9, 14, 20, 5, 9, 14, 20, 5, 9, 14, 20, 5, 9, 14, 20,
   4, 11, 16, 23, 4, 11, 16, 23, 4, 11, 16, 23, 4, 11, 16, 23,
   6, 10, 15, 21, 6, 10, 15, 21, 6, 10, 15, 21, 6, 10, 15, 21]

/-- Per-round additive constants, `floor(2^32 * abs(sin(i + 1)))`. -/
def mdK : List Nat :=
  [0xd76aa478, 0xe8c7b756, 0x242070db, 0xc1bdceee, 0xf57c0faf, 0x4787c62a, 0xa8304613, 0xfd469501,
   0x698098d8, 0x8b44f7af, 0xffff5bb1, 0x895cd7be, 0x6b901122, 0xfd987193, 0xa679438e, 0x49b40821,
   0xf61e2562, 0xc040b340, 0x265e5a51, 0xe9b6c7aa, 0xd62f105d, 0x02441453, 0xd8a1e681, 0xe7d3fbc8,
   0x21e1cde6, 0xc33707d6, 0xf4d50d87, 0x455a14ed, 0xa9e3e905, 0xfcefa3f8, 0x676f02d9, 0x8d2a4c8a,
   0xfffa3942, 0x8771f681, 0x6d9d6122, 0xfde5380c, 0xa4beea44, 0x4bdecfa9, 0xf6bb4b60, 0xbebfbc70,
   0x289b7ec6, 0xeaa127fa, 0xd4ef3085, 0x04881d05, 0xd9d4d039, 0xe6db99e5, 0x1fa27cf8, 0xc4ac5665,
   0xf4292244, 0x432aff97, 0xab9423a7, 0xfc93a039, 0x655b59c3, 0x8f0ccc92, 0xffeff47d, 0x85845dd1,
   0x6fa87e4f, 0xfe2ce6e0, 0xa3014314, 0x4e0811a1, 0xf7537e82, 0xbd3af235, 0x2ad7d2bb, 0xeb86d391]

/-- Bitwise complement on 32-bit words. -/
def not32 (x : Nat) : Nat := Nat.xor x (M32 - 1)

/-- Left rotation of a 32-bit word by `c` bits. -/
def rotl32 (x c : Nat) : Nat :=
  (Nat.lor (Nat.shiftLeft x c) (Nat.shiftRight x (32 - c))) % M32

/-- `k` little-endian bytes of `n`. -/
def leBytes (n k : Nat) : List Nat :=
  (List.range k).map fun i => n / 256 ^ i % 256

/-- Sixteen little-endian 32-bit words of a 64-byte chunk. -/
def toWords (chunk : List Nat) : List Nat :=
  (List.range 16).map fun j =>
    chunk.getD (4 * j) 0 + 256 * chunk.getD (4 * j + 1) 0 +
      65536 * chunk.getD (4 * j + 2) 0 + 16777216 * chunk.getD (4 * j + 3) 0

/-- MD5 internal state: four 32-bit words. -/
structure MDState where
  a : Nat
  b : Nat
  c : Nat
  d : Nat
  deriving Repr, DecidableEq

/-- One of the 64 MD5 rounds, over message words `M`. -/
def md5Round (M : List Nat) (st : MDState) (i : Nat) : MDState :=
  let f :=
    if i < 16 then Nat.lor (Nat.land st.b st.c) (Nat.land (not32 st.b) st.d)
    else if i < 32 then Nat.lor (Nat.land st.d st.b) (Nat.land (not32 st.d) st.c)
    else if i < 48 then Nat.xor (Nat.xor st.b st.c) st.d
    else Nat.xor st.c (Nat.lor st.b (not32 st.d))
  let g :=
    if i < 16 then i
    else if i < 32 then (5 * i + 1) % 16
    else if i < 48 then (3 * i + 5) % 16
    else 7 * i % 16
  let f2 := (f + st.a + mdK.getD i 0 + M.getD g 0) % M32
  ⟨st.d, (st.b + rotl32 f2 (mdS.getD i 0)) % M32, st.b, st.c⟩

/-- Process one 64-byte chunk. -/
def md5Chunk (st : MDState) (chunk : List Nat) : MDState :=
  let M := toWords chunk
  let e := (List.range 64).foldl (md5Round M) st
  ⟨(st.a + e.a) % M32, (st.b + e.b) % M32, (st.c + e.c) % M32, (st.d + e.d) % M32⟩

/-- Split a byte list into 64-byte chunks (`n` is fuel, large enough). -/
def chunksGo : Nat → List Nat → List (List Nat)
  | 0, _ => []
  | _ + 1, [] => []
  | n + 1, l => l.take 64 :: chunksGo n (l.drop 64)

/-- MD5 padding: `0x80`, zeros to 56 mod 64, then the bit length as 8
little-endian bytes. -/
def md5pad (msg : List Nat) : List Nat :=
  let padLen := (119 - msg.length % 64) % 64
  msg ++ (128 :: List.replicate padLen 0) ++ leBytes (8 * msg.length % 2 ^ 64) 8

/-- MD5 initial state. -/
def md5Init : MDState := ⟨0x67452301, 0xefcdab89, 0x98badcfe, 0x10325476⟩

/-- The 16-byte MD5 digest of a byte list. -/
def md5bytes (msg : List Nat) : List Nat :=
  let fin := (chunksGo (msg.length + 9) (md5pad msg)).foldl md5Chunk md5Init
  leBytes fin.a 4 ++ leBytes fin.b 4 ++ leBytes fin.c 4 ++ leBytes fin.d 4

/-- Lowercase hex digit for a nibble. -/
def hexDigit (n : Nat) : Char :=
  if n < 10 then Char.ofNat (48 + n) else Char.ofNat (87 + n)

/-- Two lowercase hex characters per byte. -/
def bytesToHex : List Nat → List Char
  | [] => []
  | b :: bs => hexDigit (b / 16) :: hexDigit (b % 16) :: bytesToHex bs

/-- `hashlib.md5(bytes(s, "utf-8")).hexdigest()`. -/
def md5HexS (s : String) : String :=
  ⟨bytesToHex (md5bytes (utf8Bytes s))⟩

/-- The 8-character discriminator: `hexdigest()[:8]` of the command text. -/
def hashStr (s : String) : String :=
  ⟨(bytesToHex (md5bytes (utf8Bytes s))).take 8⟩

/-! ## Python string helpers (`str.strip`, `int()`) -/

/-- ASCII whitespace characters stripped by Python `str.strip()` /
`bytes.strip()`. -/
def pyWsChar (c : Char) : Bool :=
  c = ' ' || c = '\t' || c = '\n' || c = '\x0d' || c = '\x0b' || c = '\x0c'

/-- Python `s.strip()` restricted to ASCII whitespace. -/
def pyStrip (s : String) : String :=
  ⟨((s.data.dropWhile pyWsChar).reverse.dropWhile pyWsChar).reverse⟩

/-- Digit run of a Python integer literal after its first digit: digits,
with single underscores allowed between digits. -/
def pyDigitsGo (acc : Nat) : List Char → Option Nat
  | [] => some acc
  | '_' :: c :: rest =>
      if c.isDigit then pyDigitsGo (acc * 10 + (c.toNat - 48)) rest else none
  | c :: rest =>
      if c.isDigit then pyDigitsGo (acc * 10 + (c.toNat - 48)) rest else none

/-- Nonempty digit run of a Python integer literal. -/
def pyDigits : List Char → Option Nat
  | [] => none
  | c :: rest => if c.isDigit then pyDigitsGo (c.toNat - 48) rest else none

/-- Python `int(s)`: strips whitespace, then an optional sign and a
nonempty digit run; anything else raises `ValueError`. -/
def pyInt (s : String) : Except String Int :=
  let cs := (pyStrip s).data
  match cs with
  | '+' :: rest =>
      match pyDigits rest with
      | some n => Except.ok (n : Int)
      | none => Except.error ("invalid literal for int: " ++ s)
  | '-' :: rest =>
      match pyDigits rest with
      | some n => Except.ok (-(n : Int))
      | none => Except.error ("invalid literal for int: " ++ s)
  | rest =>
      match pyDigits rest with
      | some n => Except.ok (n : Int)
      | none => Except.error ("invalid literal for int: " ++ s)

/-! ## `os.path` helpers (POSIX flavour) -/

/-- Index of the last occurrence of `c` in `l`, modelling `str.rfind`
(with `none` for Python's `-1`). -/
def rfindChar (l : List Char) (c : Char) : Option Nat :=
  (List.range l.length).foldl (fun acc i => if l.getD i ' ' = c then some i else acc) none

/-- `os.path.splitext` on the character list of a POSIX path: split at the
last dot of the last component, unless that component consists only of
leading dots up to it. -/
def splitextList (p : List Char) : List Char × List Char :=
  let sepIdx : Int := match rfindChar p '/' with | some i => (i : Int) | none => -1
  let dotIdx : Int := match rfindChar p '.' with | some i => (i : Int) | none => -1
  if sepIdx < dotIdx then
    let start := (sepIdx + 1).toNat
    let d := dotIdx.toNat
    if (List.range (d - start)).any (fun j => !(p.getD (start + j) ' ' == '.')) then
      (p.take d, p.drop d)
    else (p, [])
  else (p, [])

/-- `os.path.splitext` on strings. -/
def splitext (p : String) : String × String :=
  let r := splitextList p.data
  (⟨r.1⟩, ⟨r.2⟩)

/-- `os.path.join` for POSIX paths, two arguments. -/
def ospJoin (a b : String) : String :=
  if b.startsWith "/" then b
  else if a == "" || a.endsWith "/" then a ++ b
  else a ++ "/" ++ b

/-- Python `ext.lstrip(".")`: drop all leading dots. -/
def lstripDot (s : String) : String :=
  ⟨s.data.dropWhile (fun c => c == '.')⟩

/-- Python `str.replace` over character lists: scan left to right, each
(non-overlapping) occurrence of `pat` becomes `rep`.  The fuel argument
makes the recursion structural; with a nonempty pattern every step
consumes at least one character, so `length + 1` fuel always suffices. -/
def replaceFuel (pat rep : List Char) : Nat → List Char → List Char
  | 0, l => l
  | _ + 1, [] => []
  | n + 1, c :: rest =>
      if pat.isPrefixOf (c :: rest) then
        rep ++ replaceFuel pat rep n ((c :: rest).drop pat.length)
      else c :: replaceFuel pat rep n rest

/-- Python `s.replace(pat, rep)` (for the nonempty pattern used by the
emitter's cosmetic reformatting). -/
def pyReplace (s pat rep : String) : String :=
  ⟨replaceFuel pat.data rep.data (s.data.length + 1) s.data⟩

/-! ## SCons node and tag-store model

An SCons node is a file or directory entry with an absolute path
(`get_abspath`).  Its mutable tag store (`Node.Tag` / `Node.GetTag`) is
modelled as an explicit side table keyed by node path, following the
design note of the specification. -/

/-- Kind of a build-graph node: `SCons.Node.FS.File`, `SCons.Node.FS.Dir`,
or anything else (carrying its type name, as used in the error message). -/
inductive NodeKind where
  | file : NodeKind
  | dir : NodeKind
  | other : String → NodeKind
  deriving Repr, DecidableEq

/-- A build-graph node: kind plus absolute path. -/
structure Node where
  kind : NodeKind
  path : String
  deriving Repr, DecidableEq

/-- Whether the node is one of the two kinds the emitter supports. -/
def Node.isSupported (n : Node) : Bool :=
  match n.kind with
  | NodeKind.file => true
  | NodeKind.dir => true
  | NodeKind.other _ => false

/-- Tag store of one node: association list from tag key to value. -/
abbrev Tags : Type := List (String × Int)

/-- `GetTag`: look a key up, `none` when absent. -/
def tagGet : Tags → String → Option Int
  | [], _ => none
  | (k', v) :: rest, k => if k' = k then some v else tagGet rest k

/-- `Tag`: set a key to a value, replacing any earlier binding. -/
def tagSet : Tags → String → Int → Tags
  | [], k, v => [(k, v)]
  | (k', v') :: rest, k, v =>
      if k' = k then (k, v) :: rest else (k', v') :: tagSet rest k v

/-- Side table of tag stores, keyed by node path. -/
abbrev Store : Type := List (String × Tags)

/-- Tags of the node at path `p` (empty when never tagged). -/
def storeGet : Store → String → Tags
  | [], _ => []
  | (p', ts) :: rest, p => if p' = p then ts else storeGet rest p

/-- Replace the tags of the node at path `p`. -/
def storeSet : Store → String → Tags → Store
  | [], p, ts => [(p, ts)]
  | (p', ts') :: rest, p, ts =>
      if p' = p then (p, ts) :: rest else (p', ts') :: storeSet rest p ts

/-- `n.Tag(k, v)` on the side table. -/
def storeTag (st : Store) (p k : String) (v : Int) : Store :=
  storeSet st p (tagSet (storeGet st p) k v)

/-- `for t in nodes: t.Tag(k, v)`. -/
def tagNodes (st : Store) (ns : List Node) (k : String) (v : Int) : Store :=
  match ns with
  | [] => st
  | n :: rest => tagNodes (storeTag st n.path k v) rest k v

/-- `n.GetTag(k)` on the side table. -/
def getTag (st : Store) (n : Node) (k : String) : Option Int :=
  tagGet (storeGet st n.path) k

/-- The tag key for real submissions. -/
def kBuiltByJob : String := "built_by_job"

/-- The tag key for descriptive (dry-run) mode. -/
def kBuiltByPseudoJob : String := "built_by_pseudo_job"

/-! ## `grid_engine.py`: name derivation, submission, dependency set -/

/-- Module-level `create_name(target, source, env)` (lines 25-28): the MD5
hex digest of the space-joined absolute paths of all targets then all
sources, prefixed by `env["STEAMROLLER_NAME_PREFIX"]` (`pfx`) and an
underscore. -/
def create_name (target source : List Node) (pfx : String) : String :=
  pfx ++ "_" ++ md5HexS (String.intercalate " " (target.map Node.path ++ source.map Node.path))

/-- `GridEngine.create_name` (lines 136-139), textually identical to the
module-level function. -/
def GridEngine.create_name (target source : List Node) (pfx : String) : String :=
  pfx ++ "_" ++ md5HexS (String.intercalate " " (target.map Node.path ++ source.map Node.path))

/-- `set(filter(lambda x: x != None, [s.GetTag("built_by_job") for s in
source]))` (line 74). -/
def dependsOnReal (st : Store) (source : List Node) : Finset Int :=
  (source.filterMap (fun s => getTag st s kBuiltByJob)).toFinset

/-- `submit` (lines 36-64).  The scheduler subprocess is external; it is
modelled by `subOut`, the text it writes to standard output.  The job
name, log path and rendered submit string only parametrise that external
process; the function's observable result is `int(out.strip())`. -/
def submit (subOut : String) : Except String Int :=
  pyInt (pyStrip subOut)

deriving instance DecidableEq for Except

/-- Observable outcome of one call of the method built by
`create_method`. -/
structure MethodResult where
  depends_on : Finset Int
  store : Store
  result : Except String Int
  deriving DecidableEq

/-- The rule method built by `create_method` (lines 67-87): collect the
dependency set from the sources' `built_by_job` tags, submit, and, only
when a job id was parsed, tag every target with it; a parse failure
propagates before the tagging loop, leaving the store unchanged. -/
def create_method (subOut : String) (target source : List Node) (st : Store) : MethodResult :=
  let deps := dependsOnReal st source
  match submit subOut with
  | Except.error e => ⟨deps, st, Except.error e⟩
  | Except.ok jobId => ⟨deps, tagNodes st target kBuiltByJob jobId, Except.ok jobId⟩

/-! ## `GridEngine.create_emitter` (lines 149-186) -/

/-- Renaming of one nominal target (lines 159-169): insert the
discriminator between `splitext` base and extension; `env.File` /
`env.Dir` keep the kind, any other node type raises. -/
def renameTarget (hashS : String) (t : Node) : Except String Node :=
  let base := (splitext t.path).1
  let ext := (splitext t.path).2
  let newName := base ++ "_" ++ hashS ++ ext
  match t.kind with
  | NodeKind.file => Except.ok ⟨NodeKind.file, newName⟩
  | NodeKind.dir => Except.ok ⟨NodeKind.dir, newName⟩
  | NodeKind.other ty => Except.error ("Unknown target type: " ++ ty)

/-- The renamed node of a supported target, as a total function. -/
def renameOk (hashS : String) (t : Node) : Node :=
  ⟨t.kind, (splitext t.path).1 ++ "_" ++ hashS ++ (splitext t.path).2⟩

/-- The renaming loop over all nominal targets; the first unsupported
target aborts the emitter. -/
def renameAll (hashS : String) : List Node → Except String (List Node)
  | [] => Except.ok []
  | t :: ts =>
      match renameTarget hashS t with
      | Except.error e => Except.error e
      | Except.ok n =>
          match renameAll hashS ts with
          | Except.error e => Except.error e
          | Except.ok ns => Except.ok (n :: ns)

/-- Log path of one (renamed) target (lines 176-177):
`"{}_{}.command".format(base, ext.lstrip("."))`. -/
def logName (p : String) : String :=
  (splitext p).1 ++ "_" ++ lstripDot (splitext p).2 ++ ".command"

/-- Result of the emitter: the replacement targets, the unchanged sources,
and the `(path, text)` log files written on disk. -/
structure EmitResult where
  targets : List Node
  sources : List Node
  logs : List (String × String)
  deriving Repr, DecidableEq

/-- The emitter built by `create_emitter` (lines 149-186).  `gc` is the
`get_contents` closure: the fully substituted command text for given
targets and sources (SCons returns its UTF-8 bytes; the byte/text
boundary is crossed at the MD5 call).  Two-pass rendering: hash the text
for the nominal targets, rename, re-render against the new targets, and
write one `.command` log per new target with long option lists broken
onto indented lines (`replace(" --", "\n  --")`).  The `os.makedirs` call
and the `env.Depends` registrations are external filesystem/graph
effects with no observable value here. -/
def emitter (gc : List Node → List Node → String) (target source : List Node) :
    Except String EmitResult :=
  let hashS := hashStr (gc target source)
  match renameAll hashS target with
  | Except.error e => Except.error e
  | Except.ok newTargets =>
      let newCommand := gc newTargets source
      let logs := newTargets.map fun t =>
        (logName t.path, pyReplace newCommand " --" "\n  --")
      Except.ok ⟨newTargets, source, logs⟩

/-! ## `GridEngine.command_printer` (lines 188-209) and `pseudo_id` -/

/-- Python attribute state behind `self.pseudo_id`: the class attribute
`GridEngine.pseudo_id` (line 95) plus the per-instance attributes that
`self.pseudo_id += 1` creates, keyed by instance identity. -/
structure EngineState where
  classCounter : Int
  instCounters : List (String × Int)
  deriving Repr, DecidableEq

/-- Reading `self.pseudo_id` on instance `i`: the instance attribute when
present, else the class attribute. -/
def pseudoRead (es : EngineState) (i : String) : Int :=
  match tagGet es.instCounters i with
  | some v => v
  | none => es.classCounter

/-- Writing `self.pseudo_id` on instance `i`: always sets the instance
attribute, never the class attribute. -/
def pseudoWrite (es : EngineState) (i : String) (v : Int) : EngineState :=
  ⟨es.classCounter, tagSet es.instCounters i v⟩

/-- Observable outcome of one `command_printer` call. -/
structure PrinterResult where
  state : EngineState
  store : Store
  jobId : Int
  deps : Finset Int
  deriving DecidableEq

/-- The printer built by `create_command_printer` (lines 188-209), run on
engine instance `inst`: collect pseudo-dependencies, read
`self.pseudo_id` as the fabricated job id, tag every target under
`built_by_pseudo_job`, then `self.pseudo_id += 1`.  The returned
description string is display-only; its ingredients are returned as
fields. -/
def command_printer (inst : String) (target source : List Node)
    (es : EngineState) (st : Store) : PrinterResult :=
  let deps := (source.filterMap (fun s => getTag st s kBuiltByPseudoJob)).toFinset
  let jobId := pseudoRead es inst
  let st2 := tagNodes st target kBuiltByPseudoJob jobId
  let es2 := pseudoWrite es inst (jobId + 1)
  ⟨es2, st2, jobId, deps⟩

/-! ## `GridEngine.check_for_executable` (lines 98-100) -/

/-- Availability check: `fs` is the set of existing filesystem paths
(`os.path.exists`), `pathVar` the value of `os.environ["PATH"]`.  True
iff some entry of the colon-split path list contains the literal
filename; nothing is executed. -/
def check_for_executable (fs : List String) (pathVar : String) (nm : String) : Bool :=
  (pathVar.splitOn ":").any fun p => fs.contains (ospJoin p nm)

/-! ## Helper notions and lemmas -/

/-- A lowercase hexadecimal character. -/
def isHexCh (c : Char) : Bool :=
  c.isDigit || ('a' ≤ c && c ≤ 'f')

theorem tagGet_tagSet (ts : Tags) (k : String) (v : Int) (k' : String) :
    tagGet (tagSet ts k v) k' = if k' = k then some v else tagGet ts k' := by
  induction ts with
  | nil =>
      by_cases h : k' = k
      · simp [tagSet, tagGet, h]
      · have h' : ¬k = k' := fun e => h e.symm
        simp [tagSet, tagGet, h, h']
  | cons hd tl ih =>
      obtain ⟨k'', v''⟩ := hd
      by_cases h1 : k'' = k
      · subst h1
        by_cases h2 : k' = k''
        · simp [tagSet, tagGet, h2]
        · have h2' : ¬k'' = k' := fun e => h2 e.symm
          simp [tagSet, tagGet, h2, h2']
      · by_cases h2 : k' = k''
        · subst h2
          have h1' : ¬k = k' := fun e => h1 e.symm
          simp [tagSet, tagGet, h1, h1']
        · have h2' : ¬k'' = k' := fun e => h2 e.symm
          simp [tagSet, tagGet, h1, h2, h2', ih]

theorem storeGet_storeSet (st : Store) (p : String) (ts : Tags) (q : String) :
    storeGet (storeSet st p ts) q = if p = q then ts else storeGet st q := by
  induction st with
  | nil =>
      by_cases h : p = q
      · simp [storeSet, storeGet, h]
      · simp [storeSet, storeGet, h]
  | cons hd tl ih =>
      obtain ⟨p'', ts''⟩ := hd
      by_cases h1 : p'' = p
      · subst h1
        by_cases h2 : p'' = q <;> simp [storeSet, storeGet, h2]
      · by_cases h2 : p'' = q
        · subst h2
          have h1' : ¬p = p'' := fun e => h1 e.symm
          simp [storeSet, storeGet, h1, h1']
        · simp [storeSet, storeGet, h1, h2, ih]

theorem tagGet_storeTag (st : Store) (p k : String) (v : Int) (q k' : String) :
    tagGet (storeGet (storeTag st p k v) q) k' =
      if p = q ∧ k' = k then some v else tagGet (storeGet st q) k' := by
  unfold storeTag
  rw [storeGet_storeSet]
  by_cases h1 : p = q
  · subst h1
    rw [if_pos rfl, tagGet_tagSet]
    by_cases h2 : k' = k <;> simp [h2]
  · simp [h1]

theorem storeGet_storeTag_ne (st : Store) (p k : String) (v : Int) (q : String)
    (h : p ≠ q) : storeGet (storeTag st p k v) q = storeGet st q := by
  unfold storeTag
  rw [storeGet_storeSet]
  simp [h]

theorem tagGet_tagNodes (ns : List Node) (st : Store) (k : String) (v : Int) (q k' : String) :
    tagGet (storeGet (tagNodes st ns k v) q) k' =
      if q ∈ ns.map Node.path ∧ k' = k then some v else tagGet (storeGet st q) k' := by
  induction ns generalizing st with
  | nil => simp [tagNodes]
  | cons n ns ih =>
      rw [tagNodes, ih, tagGet_storeTag]
      by_cases hmem : q ∈ ns.map Node.path
      · by_cases hk : k' = k
        · simp [hmem, hk]
        · simp [hmem, hk]
      · by_cases hp : n.path = q
        · subst hp
          by_cases hk : k' = k <;> simp [hmem, hk]
        · have hp' : ¬q = n.path := fun e => hp e.symm
          simp [hmem, hp, hp']

theorem storeGet_tagNodes_not_mem (ns : List Node) (st : Store) (k : String) (v : Int)
    (q : String) (h : q ∉ ns.map Node.path) :
    storeGet (tagNodes st ns k v) q = storeGet st q := by
  induction ns generalizing st with
  | nil => simp [tagNodes]
  | cons n ns ih =>
      simp only [List.map_cons, List.mem_cons] at h
      push_neg at h
      rw [tagNodes, ih _ h.2, storeGet_storeTag_ne _ _ _ _ _ (fun he => h.1 he.symm)]

theorem renameTarget_ok (hashS : String) (t : Node) (h : t.isSupported = true) :
    renameTarget hashS t = Except.ok (renameOk hashS t) := by
  obtain ⟨kd, p⟩ := t
  cases kd with
  | file => rfl
  | dir => rfl
  | other ty => simp [Node.isSupported] at h

theorem renameAll_ok (hashS : String) (ts : List Node)
    (h : ∀ t ∈ ts, t.isSupported = true) :
    renameAll hashS ts = Except.ok (ts.map (renameOk hashS)) := by
  induction ts with
  | nil => rfl
  | cons t ts ih =>
      rw [renameAll, renameTarget_ok hashS t (h t (by simp)),
        ih (fun x hx => h x (by simp [hx]))]
      simp

theorem renameAll_err (hashS : String) (ts : List Node) (t : Node)
    (ht : t ∈ ts) (hbad : t.isSupported = false) :
    ∃ e, renameAll hashS ts = Except.error e := by
  induction ts with
  | nil => simp at ht
  | cons a ts ih =>
      rcases List.mem_cons.mp ht with rfl | hmem
      · obtain ⟨kd, p⟩ := t
        cases kd with
        | file => simp [Node.isSupported] at hbad
        | dir => simp [Node.isSupported] at hbad
        | other ty => exact ⟨"Unknown target type: " ++ ty, rfl⟩
      · rcases hre : renameTarget hashS a with e | n
        · exact ⟨e, by rw [renameAll, hre]⟩
        · obtain ⟨e, he⟩ := ih hmem
          exact ⟨e, by rw [renameAll, hre, he]⟩

theorem leBytes_length (n k : Nat) : (leBytes n k).length = k := by
  simp [leBytes]

theorem md5bytes_length (m : List Nat) : (md5bytes m).length = 16 := by
  unfold md5bytes
  simp [leBytes_length]

theorem bytesToHex_length (l : List Nat) : (bytesToHex l).length = 2 * l.length := by
  induction l with
  | nil => rfl
  | cons b bs ih => simp [bytesToHex, ih]; ring

theorem leBytes_mem_lt (n k b : Nat) (h : b ∈ leBytes n k) : b < 256 := by
  simp only [leBytes, List.mem_map] at h
  obtain ⟨i, _, rfl⟩ := h
  exact Nat.mod_lt _ (by norm_num)

theorem md5bytes_mem_lt (m : List Nat) (b : Nat) (h : b ∈ md5bytes m) : b < 256 := by
  unfold md5bytes at h
  simp only [List.mem_append] at h
  rcases h with ((h | h) | h) | h <;> exact leBytes_mem_lt _ _ _ h

theorem hexDigit_isHex (n : Nat) (h : n < 16) : isHexCh (hexDigit n) = true := by
  revert h
  revert n
  decide

theorem bytesToHex_mem_isHex (l : List Nat) (hl : ∀ b ∈ l, b < 256) (c : Char)
    (hc : c ∈ bytesToHex l) : isHexCh c = true := by
  induction l with
  | nil => simp [bytesToHex] at hc
  | cons b bs ih =>
      have hb : b < 256 := hl b (by simp)
      simp only [bytesToHex, List.mem_cons] at hc
      rcases hc with rfl | rfl | hc
      · exact hexDigit_isHex _ (by omega)
      · exact hexDigit_isHex _ (Nat.mod_lt _ (by norm_num))
      · exact ih (fun x hx => hl x (by simp [hx])) hc

theorem hashStr_length (s : String) : (hashStr s).length = 8 := by
  unfold hashStr
  show ((bytesToHex (md5bytes (utf8Bytes s))).take 8).length = 8
  rw [List.length_take, bytesToHex_length, md5bytes_length]
  norm_num

theorem hashStr_mem_isHex (s : String) (c : Char) (hc : c ∈ (hashStr s).data) :
    isHexCh c = true := by
  unfold hashStr at hc
  have hc' : c ∈ bytesToHex (md5bytes (utf8Bytes s)) := List.take_subset _ _ hc
  exact bytesToHex_mem_isHex _ (fun b hb => md5bytes_mem_lt _ b hb) c hc'

theorem md5HexS_length (s : String) : (md5HexS s).length = 32 := by
  unfold md5HexS
  show (bytesToHex (md5bytes (utf8Bytes s))).length = 32
  rw [bytesToHex_length, md5bytes_length]

theorem md5HexS_mem_isHex (s : String) (c : Char) (hc : c ∈ (md5HexS s).data) :
    isHexCh c = true := by
  unfold md5HexS at hc
  exact bytesToHex_mem_isHex _ (fun b hb => md5bytes_mem_lt _ b hb) c hc

theorem pseudoRead_pseudoWrite (es : EngineState) (i : String) (v : Int) :
    pseudoRead (pseudoWrite es i v) i = v := by
  unfold pseudoRead pseudoWrite
  simp [tagGet_tagSet]

/-! ## Claim theorems -/

/-- C3: the dependency set passed to submission (`depends_on`) equals
exactly the set of distinct non-null values of the `built_by_job` tag
across the rule's source nodes; a source node carrying no such tag
contributes nothing. -/
theorem C3_depends_on_exact (subOut : String) (target source : List Node) (st : Store)
    (j : Int) :
    j ∈ (create_method subOut target source st).depends_on ↔
      ∃ s ∈ source, getTag st s kBuiltByJob = some j := by
  have hdeps : (create_method subOut target source st).depends_on = dependsOnReal st source := by
    unfold create_method
    cases submit subOut <;> rfl
  rw [hdeps]
  unfold dependsOnReal
  simp [List.mem_filterMap]

/-- C4: submission parses the subprocess's stripped standard output as an
integer job identifier (output `"1337\n"` yields `1337`); when the
stripped output does not parse, the operation fails with a parse error
and the tag store is unchanged — no `built_by_job` tag is written. -/
theorem C4_parse_or_unchanged (target source : List Node) (st : Store) (out : String) :
    (create_method "1337\n" target source st).result = Except.ok 1337 ∧
    ((∃ e, submit out = Except.error e) →
      (create_method out target source st).store = st ∧
      ∃ e, (create_method out target source st).result = Except.error e) := by
  refine ⟨rfl, ?_⟩
  rintro ⟨e, he⟩
  refine ⟨?_, ⟨e, ?_⟩⟩ <;> simp [create_method, he]

theorem C4_witness :
    (create_method "not-a-number\n" [⟨NodeKind.file, "/w/t"⟩] [] []).store = [] ∧
    ∃ e, (create_method "not-a-number\n" [⟨NodeKind.file, "/w/t"⟩] [] []).result =
      Except.error e :=
  (C4_parse_or_unchanged [⟨NodeKind.file, "/w/t"⟩] [] [] "not-a-number\n").2
    ⟨"invalid literal for int: not-a-number", rfl⟩

/-- C9: on the real submission path, the only node-tag mutation is the
`built_by_job` tag written on the target nodes; no other key changes
anywhere, and every node outside the target list — the sources in
particular — keeps its tag store untouched. -/
theorem C9_tag_frame (subOut : String) (target source : List Node) (st : Store) (j : Int)
    (h : (create_method subOut target source st).result = Except.ok j) :
    (∀ n ∈ target, getTag (create_method subOut target source st).store n kBuiltByJob = some j) ∧
    (∀ p k, k ≠ kBuiltByJob →
      tagGet (storeGet (create_method subOut target source st).store p) k =
        tagGet (storeGet st p) k) ∧
    (∀ p, p ∉ target.map Node.path →
      storeGet (create_method subOut target source st).store p = storeGet st p) := by
  rcases hs : submit subOut with e | jobId
  · exfalso
    simp [create_method, hs] at h
  · have hj : jobId = j := by
      have := h
      simp [create_method, hs] at this
      exact this
    subst hj
    have hstore : (create_method subOut target source st).store =
        tagNodes st target kBuiltByJob jobId := by
      simp [create_method, hs]
    refine ⟨?_, ?_, ?_⟩
    · intro n hn
      rw [hstore]
      unfold getTag
      rw [tagGet_tagNodes, if_pos ⟨List.mem_map_of_mem _ hn, rfl⟩]
    · intro p k hk
      rw [hstore, tagGet_tagNodes, if_neg (fun hc => hk hc.2)]
    · intro p hp
      rw [hstore, storeGet_tagNodes_not_mem _ _ _ _ _ hp]

theorem C9_witness :
    (∀ n ∈ [(⟨NodeKind.file, "/w/t"⟩ : Node)],
      getTag (create_method "1337\n" [⟨NodeKind.file, "/w/t"⟩]
        [⟨NodeKind.file, "/w/s"⟩] []).store n kBuiltByJob = some 1337) ∧
    (∀ p k, k ≠ kBuiltByJob →
      tagGet (storeGet (create_method "1337\n" [⟨NodeKind.file, "/w/t"⟩]
        [⟨NodeKind.file, "/w/s"⟩] []).store p) k = tagGet (storeGet [] p) k) ∧
    (∀ p, p ∉ [(⟨NodeKind.file, "/w/t"⟩ : Node)].map Node.path →
      storeGet (create_method "1337\n" [⟨NodeKind.file, "/w/t"⟩]
        [⟨NodeKind.file, "/w/s"⟩] []).store p = storeGet [] p) :=
  C9_tag_frame "1337\n" [⟨NodeKind.file, "/w/t"⟩] [⟨NodeKind.file, "/w/s"⟩] [] 1337 rfl

/-- C7: the availability check for an executable named `nm` is true iff
some entry of the colon-split `PATH` list contains a file literally named
`nm`; the check is a pure scan of the filesystem table and invokes
nothing. -/
theorem C7_availability_iff (fs : List String) (pathVar nm : String) :
    check_for_executable fs pathVar nm = true ↔
      ∃ p ∈ pathVar.splitOn ":", ospJoin p nm ∈ fs := by
  unfold check_for_executable
  rw [List.any_eq_true]
  constructor
  · rintro ⟨p, hp, hc⟩
    exact ⟨p, hp, by simpa using hc⟩
  · rintro ⟨p, hp, hc⟩
    exact ⟨p, hp, by simpa using hc⟩

/-- C10: the module-level name derivation used by real submission and the
engine method used by descriptive mode agree on every input, so
descriptive mode reports the same job name a real submission would
use. -/
theorem C10_create_name_equiv (target source : List Node) (pfx : String) :
    create_name target source pfx = GridEngine.create_name target source pfx := rfl

/-- C5 counterexample: two successive descriptive-mode calls in one
process, on two different engine instances, both fabricate pseudo-id 0 —
`self.pseudo_id += 1` creates a per-instance attribute, so the counter is
not process-wide and the ids are not strictly increasing. -/
theorem C5_cex :
    ¬ ((command_printer "A" [] [] ⟨0, []⟩ []).jobId <
       (command_printer "B" [] []
         (command_printer "A" [] [] ⟨0, []⟩ []).state
         (command_printer "A" [] [] ⟨0, []⟩ []).store).jobId) := by decide

/-- C5 (amended): successive descriptive-mode calls on the same engine
instance fabricate strictly increasing pseudo-identifiers (the counter is
per-instance once written, seeded from the class attribute), and a
pseudo-identifier is recorded only under `built_by_pseudo_job`: no key
other than that one — `built_by_job` in particular — changes on any
node. -/
theorem C5_pseudo_ids (inst : String) (t1 s1 t2 s2 : List Node) (es : EngineState)
    (st st2 : Store) :
    (command_printer inst t1 s1 es st).jobId <
      (command_printer inst t2 s2 (command_printer inst t1 s1 es st).state st2).jobId ∧
    (∀ n ∈ t1, getTag (command_printer inst t1 s1 es st).store n kBuiltByPseudoJob =
      some (command_printer inst t1 s1 es st).jobId) ∧
    (∀ p k, k ≠ kBuiltByPseudoJob →
      tagGet (storeGet (command_printer inst t1 s1 es st).store p) k =
        tagGet (storeGet st p) k) ∧
    (∀ p, tagGet (storeGet (command_printer inst t1 s1 es st).store p) kBuiltByJob =
      tagGet (storeGet st p) kBuiltByJob) := by
  have hid : (command_printer inst t1 s1 es st).jobId = pseudoRead es inst := rfl
  have hst : (command_printer inst t1 s1 es st).state =
      pseudoWrite es inst (pseudoRead es inst + 1) := rfl
  have hstore : (command_printer inst t1 s1 es st).store =
      tagNodes st t1 kBuiltByPseudoJob (pseudoRead es inst) := rfl
  refine ⟨?_, ?_, ?_, ?_⟩
  · have h2 : (command_printer inst t2 s2 (command_printer inst t1 s1 es st).state st2).jobId =
        pseudoRead (command_printer inst t1 s1 es st).state inst := rfl
    rw [hid, h2, hst, pseudoRead_pseudoWrite]
    omega
  · intro n hn
    rw [hid, hstore]
    unfold getTag
    rw [tagGet_tagNodes, if_pos ⟨List.mem_map_of_mem _ hn, rfl⟩]
  · intro p k hk
    rw [hstore, tagGet_tagNodes, if_neg (fun hc => hk hc.2)]
  · intro p
    rw [hstore, tagGet_tagNodes,
      if_neg (fun hc => absurd hc.2 (by unfold kBuiltByJob kBuiltByPseudoJob; decide))]

theorem C5_witness :
    getTag (command_printer "A" [⟨NodeKind.file, "/w/t"⟩] [] ⟨0, []⟩ []).store
      ⟨NodeKind.file, "/w/t"⟩ kBuiltByPseudoJob = some 0 := by
  have h := (C5_pseudo_ids "A" [⟨NodeKind.file, "/w/t"⟩] [] [] [] ⟨0, []⟩ [] []).2.1
    ⟨NodeKind.file, "/w/t"⟩ (by simp)
  exact h

/-- C6: the job name used for submission is deterministic in the absolute
paths of the targets followed by the sources and in the configured name
prefix alone (node kinds and any other data are irrelevant), and it is
the configured prefix, an underscore, and a 32-character hex digest of
those paths — command text plays no part. -/
theorem C6_name_from_paths (t t' s s' : List Node) (pfx : String)
    (ht : t.map Node.path = t'.map Node.path) (hs : s.map Node.path = s'.map Node.path) :
    create_name t s pfx = create_name t' s' pfx ∧
    ∃ d : String, create_name t s pfx = pfx ++ "_" ++ d ∧ d.length = 32 ∧
      ∀ c ∈ d.data, isHexCh c = true := by
  constructor
  · unfold create_name
    rw [ht, hs]
  · exact ⟨md5HexS (String.intercalate " " (t.map Node.path ++ s.map Node.path)), rfl,
      md5HexS_length _, fun c hc => md5HexS_mem_isHex _ c hc⟩

theorem C6_witness :
    create_name [⟨NodeKind.file, "/a"⟩] [] "steamroller" =
      create_name [⟨NodeKind.dir, "/a"⟩] [] "steamroller" ∧
    ∃ d : String, create_name [⟨NodeKind.file, "/a"⟩] [] "steamroller" =
      "steamroller" ++ "_" ++ d ∧ d.length = 32 ∧ ∀ c ∈ d.data, isHexCh c = true :=
  C6_name_from_paths [⟨NodeKind.file, "/a"⟩] [⟨NodeKind.dir, "/a"⟩] [] [] "steamroller" rfl rfl

/-- C8: a nominal target that is neither a file node nor a directory node
makes the emitter fail fast with an unsupported-target-kind error; no
renamed target list is produced at all. -/
theorem C8_unsupported (gc : List Node → List Node → String) (target source : List Node)
    (t : Node) (ht : t ∈ target) (hbad : t.isSupported = false) :
    ∃ e, emitter gc target source = Except.error e := by
  obtain ⟨e, he⟩ := renameAll_err (hashStr (gc target source)) target t ht hbad
  exact ⟨e, by simp only [emitter, he]⟩

theorem C8_witness :
    ∃ e, emitter (fun _ _ => "cmd") [⟨NodeKind.other "Alias", "/w/z"⟩] [] =
      Except.error e :=
  C8_unsupported (fun _ _ => "cmd") [⟨NodeKind.other "Alias", "/w/z"⟩] []
    ⟨NodeKind.other "Alias", "/w/z"⟩ (by simp) rfl

set_option maxRecDepth 100000 in
/-- C1 counterexample: for the directory target `/w/out.d` the code does
not append the discriminator; it inserts it before the `splitext`
extension `.d` exactly as for files, yielding `/w/out_d9fb6462.d` rather
than an appended form. -/
theorem C1_cex :
    (emitter (fun _ _ => "run --x 1") [⟨NodeKind.dir, "/w/out.d"⟩] []).toOption.map
        (fun r => r.targets.map Node.path) = some ["/w/out_d9fb6462.d"] ∧
    hashStr "run --x 1" = "d9fb6462" ∧
    "/w/out_d9fb6462.d" ≠ "/w/out.d" ++ "_" ++ "d9fb6462" ∧
    "/w/out_d9fb6462.d" ≠ "/w/out.d" ++ "d9fb6462" := by decide

/-- C1 (amended): the emitter computes the 8-hex-character discriminator
as the digest prefix of the command text rendered against the nominal
targets, and renames every nominal target — file and directory alike — to
the original path with the discriminator inserted between the `splitext`
base and extension (for a directory with no extension this amounts to
appending), preserving the node kind; the renamed paths are a
deterministic function of that first-pass command text. -/
theorem C1_renaming (gc gc' : List Node → List Node → String) (target source : List Node)
    (hsup : ∀ t ∈ target, t.isSupported = true)
    (hgc : gc' target source = gc target source) :
    ∃ r, emitter gc target source = Except.ok r ∧
      r.targets = target.map (renameOk (hashStr (gc target source))) ∧
      (∀ t ∈ target, (renameOk (hashStr (gc target source)) t).kind = t.kind ∧
        (renameOk (hashStr (gc target source)) t).path =
          (splitext t.path).1 ++ "_" ++ hashStr (gc target source) ++ (splitext t.path).2) ∧
      (hashStr (gc target source)).length = 8 ∧
      (∀ c ∈ (hashStr (gc target source)).data, isHexCh c = true) ∧
      ∃ r', emitter gc' target source = Except.ok r' ∧ r'.targets = r.targets := by
  simp only [emitter, renameAll_ok _ _ hsup, hgc]
  refine ⟨_, rfl, rfl, fun t ht => ⟨rfl, rfl⟩, hashStr_length _,
    fun c hc => hashStr_mem_isHex _ c hc, _, rfl, rfl⟩

set_option maxRecDepth 100000 in
theorem C1_witness :
    ∃ r, emitter (fun _ _ => "run --x 1") [⟨NodeKind.file, "/w/out.txt"⟩] [] =
        Except.ok r ∧
      r.targets = [⟨NodeKind.file, "/w/out.txt"⟩].map
        (renameOk (hashStr ((fun (_ _ : List Node) => "run --x 1") [⟨NodeKind.file, "/w/out.txt"⟩] []))) ∧
      (∀ t ∈ [(⟨NodeKind.file, "/w/out.txt"⟩ : Node)],
        (renameOk (hashStr "run --x 1") t).kind = t.kind ∧
        (renameOk (hashStr "run --x 1") t).path =
          (splitext t.path).1 ++ "_" ++ hashStr "run --x 1" ++ (splitext t.path).2) ∧
      (hashStr "run --x 1").length = 8 ∧
      (∀ c ∈ (hashStr "run --x 1").data, isHexCh c = true) ∧
      ∃ r', emitter (fun _ _ => "run --x 1") [⟨NodeKind.file, "/w/out.txt"⟩] [] =
        Except.ok r' ∧ r'.targets = r.targets :=
  C1_renaming (fun _ _ => "run --x 1") (fun _ _ => "run --x 1")
    [⟨NodeKind.file, "/w/out.txt"⟩] [] (by decide) rfl

set_option maxRecDepth 100000 in
/-- C2 counterexample: for nominal target `/w/out.txt` and command text
`run --x 1` the renamed target is `/w/out_d9fb6462.txt`, but the log file
is `/w/out_d9fb6462_txt.command` — the extension is folded into the stem
with an underscore after the discriminator, not replaced by `.command`,
and it is not the claimed `out_txt.command`. -/
theorem C2_cex :
    (emitter (fun _ _ => "run --x 1") [⟨NodeKind.file, "/w/out.txt"⟩] []).toOption.map
        EmitResult.logs = some [("/w/out_d9fb6462_txt.command", "run\n  --x 1")] ∧
    (emitter (fun _ _ => "run --x 1") [⟨NodeKind.file, "/w/out.txt"⟩] []).toOption.map
        (fun r => r.targets.map Node.path) = some ["/w/out_d9fb6462.txt"] ∧
    "/w/out_d9fb6462_txt.command" ≠ "/w/out_txt.command" ∧
    "/w/out_d9fb6462_txt.command" ≠ "/w/out_d9fb6462.command" := by decide

/-- C2 (amended): for every renamed target the emitter records a log file
whose path is the renamed target's `splitext` base, an underscore, the
dot-stripped extension and `.command`, containing the command text
re-rendered against the new targets with every ` --` option moved onto
its own indented line; for target `out.txt` with command text
`run --x 1` this is `out_d9fb6462_txt.command` containing
`run\n  --x 1`. -/
theorem C2_logging (gc : List Node → List Node → String) (target source : List Node)
    (hsup : ∀ t ∈ target, t.isSupported = true) :
    ∃ r, emitter gc target source = Except.ok r ∧
      r.logs = r.targets.map (fun t =>
        (logName t.path, pyReplace (gc r.targets source) " --" "\n  --")) ∧
      (∀ t ∈ r.targets, logName t.path =
        (splitext t.path).1 ++ "_" ++ lstripDot (splitext t.path).2 ++ ".command") := by
  simp only [emitter, renameAll_ok _ _ hsup]
  exact ⟨_, rfl, rfl, fun t ht => rfl⟩

theorem C2_witness :
    ∃ r, emitter (fun _ _ => "run --x 1") [⟨NodeKind.file, "/w/out.txt"⟩] [] =
        Except.ok r ∧
      r.logs = r.targets.map (fun t =>
        (logName t.path, pyReplace ((fun (_ _ : List Node) => "run --x 1") r.targets []) " --" "\n  --")) ∧
      (∀ t ∈ r.targets, logName t.path =
        (splitext t.path).1 ++ "_" ++ lstripDot (splitext t.path).2 ++ ".command") :=
  C2_logging (fun _ _ => "run --x 1") [⟨NodeKind.file, "/w/out.txt"⟩] [] (by decide)
